import Mathlib

/-!
Verification of the viewer repository's core logic: the file-change
signature, the aspect-fit scale computation, the image-list navigation
operations (cycle / shift / drop), and the polling update step.

The Rust source is embedded shallowly:
* `f32` arithmetic of the aspect-fit computation and the elapsed-time
  accumulator is modelled by exact rational arithmetic (`ℚ`);
* `std::time::SystemTime` instants are modelled as abstract `Nat` tags
  (only equality of timestamps is ever used by the program);
* file-system and GPU effects (`std::fs::metadata`, texture upload) are
  modelled by explicit oracle parameters carrying the outcome the
  environment produced, mirroring exactly how the source consumes them.
-/

namespace Viewer

/-- Rust struct `FileSignature` from `src/main.rs` (both variants): metadata triple used
as a change proxy.  `modified`/`created` are `Option` timestamps
(`mdata.modified().ok()` / `mdata.created().ok()`), `len` the byte length. -/
structure FileSignature where
  modified : Option Nat
  created : Option Nat
  len : Nat
deriving DecidableEq, Repr

/-- Equality of optional timestamps as Rust's derived `PartialEq` on
`Option<SystemTime>` computes it: `Some == Some` compares the instants,
`None == None` is true, mixed is false. -/
def optTimeEq (a b : Option Nat) : Bool :=
  match a, b with
  | some x, some y => x == y
  | none, none => true
  | _, _ => false

/-- The derived `PartialEq` of `FileSignature`: field-wise conjunction. -/
def fileSignatureEq (a b : FileSignature) : Bool :=
  optTimeEq a.modified b.modified && optTimeEq a.created b.created && (a.len == b.len)

/-- Embedding of `StableAspectRatioImageRenderer::recalculate_aspect_ratio`
(`src/main.rs` lines 342-360): from the window size, the externally set
pre-scale and the image size, compute the scale handed to
`image_renderer.set_scale`.  Field order follows the source:
`view_width = w * scale.x`, `view_height = h * scale.y`, aspects are the
width/height quotients, and the branch shrinks one axis. -/
def recalcAspectScale (windowSize : Int × Int) (scale : ℚ × ℚ)
    (imageSize : Int × Int) : ℚ × ℚ :=
  let viewWidth : ℚ := (windowSize.1 : ℚ) * scale.1
  let viewHeight : ℚ := (windowSize.2 : ℚ) * scale.2
  let viewAspect : ℚ := viewWidth / viewHeight
  let imageAspect : ℚ := (imageSize.1 : ℚ) / (imageSize.2 : ℚ)
  if viewAspect < imageAspect then
    (scale.1, scale.2 * (viewAspect / imageAspect))
  else
    (scale.1 * (imageAspect / viewAspect), scale.2)

/-- Rust struct `TextureFile` from `src/main.rs` lines 174-179: one entry of the image
sequence.  The GPU `Texture` handle and the file path are abstracted to
`Nat` tags; only the signature's structure matters to the claims. -/
structure TextureFile where
  texture : Nat
  path : Nat
  sig : FileSignature
deriving DecidableEq, Repr

/-- Rust struct `AppData` from `src/main.rs` lines 181-190.  The renderer is summarised
by the texture whose data it currently displays (`none` before the first
successful upload, matching `ImageRenderer.texture_loaded = false`); the
`f32` accumulator `seconds_elapsed` is an exact rational. -/
structure AppData where
  imagePaths : List TextureFile
  currentImageIndex : Nat
  windowSize : Int × Int
  cursorPosition : Int × Int
  displayedTexture : Option Nat
  secondsElapsed : ℚ
deriving DecidableEq, Repr

/-- Embedding of `Vec::swap` on the image list: exchange the entries at positions `a`
and `b`.  Out-of-range positions (which would panic in Rust and never occur
under the claims' preconditions) leave the list unchanged. -/
def listSwap (l : List TextureFile) (a b : Nat) : List TextureFile :=
  match l.get? a, l.get? b with
  | some x, some y => (l.set a y).set b x
  | _, _ => l

/-- Embedding of `AppData::reload_texture` (`src/main.rs` lines 230-234): hand the
current entry's texture to the renderer.  `ok` is the outcome of the
renderer's `set_texture_data`; on failure the renderer is left unchanged
(its `set_texture_data` returns before mutating any state, see
`viewer/src/image_renderer.rs` lines 46-52), so the previous texture stays
displayed. -/
def reloadTexture (a : AppData) (ok : Bool) : AppData :=
  if ok then
    match a.imagePaths.get? a.currentImageIndex with
    | some f => { a with displayedTexture := some f.texture }
    | none => a
  else a

/-- Embedding of `AppData::cycle_left` (`src/main.rs` lines 280-284).  The trailing
`reload_texture().unwrap()` demands success, so the reload is modelled as
succeeding. -/
def cycleLeft (a : AppData) : AppData :=
  let newIndex := a.currentImageIndex + a.imagePaths.length - 1
  reloadTexture { a with currentImageIndex := newIndex % a.imagePaths.length } true

/-- Embedding of `AppData::cycle_right` (`src/main.rs` lines 286-290). -/
def cycleRight (a : AppData) : AppData :=
  let newIndex := a.currentImageIndex + 1
  reloadTexture { a with currentImageIndex := newIndex % a.imagePaths.length } true

/-- Embedding of `AppData::swap_image_positions` (`src/main.rs` lines 292-294). -/
def swapImagePositions (a : AppData) (i j : Nat) : AppData :=
  { a with imagePaths := listSwap a.imagePaths i j }

/-- Embedding of `AppData::shift_right` (`src/main.rs` lines 296-301): swap the current
entry with its right modulo-neighbor and follow it (no reload). -/
def shiftRight (a : AppData) : AppData :=
  let thisIndex := a.currentImageIndex
  let otherIndex := (thisIndex + 1) % a.imagePaths.length
  let a' := swapImagePositions a thisIndex otherIndex
  { a' with currentImageIndex := otherIndex }

/-- Embedding of `AppData::shift_left` (`src/main.rs` lines 303-308). -/
def shiftLeft (a : AppData) : AppData :=
  let thisIndex := a.currentImageIndex
  let otherIndex := (thisIndex + a.imagePaths.length - 1) % a.imagePaths.length
  let a' := swapImagePositions a thisIndex otherIndex
  { a' with currentImageIndex := otherIndex }

/-- Embedding of `AppData::drop_current` (`src/main.rs` lines 310-316): remove the
current entry, wrap the index to `0` when it now equals the shortened
length, then reload (`unwrap`, modelled as succeeding). -/
def dropCurrent (a : AppData) : AppData :=
  let paths := a.imagePaths.eraseIdx a.currentImageIndex
  let idx := if a.currentImageIndex = paths.length then 0 else a.currentImageIndex
  reloadTexture { a with imagePaths := paths, currentImageIndex := idx } true

/-- Embedding of `AppData::update` (`src/main.rs` lines 243-264).  `captured` is the
outcome of `FileSignature::new(&f.path)` at this tick (`none` = `Err`),
`reloadOk` the outcome of the attempted `reload_texture`; both are oracle
parameters for the environment's behavior, consumed exactly where the
source consumes them.  Returns the new state and the "did redraw" flag. -/
def update (a : AppData) (delta : ℚ) (captured : Option FileSignature)
    (reloadOk : Bool) : AppData × Bool :=
  let t := a.secondsElapsed + delta
  if 1 ≤ t then
    let a1 := { a with secondsElapsed := 0 }
    match captured, a1.imagePaths.get? a1.currentImageIndex with
    | some sig, some f =>
      if f.sig ≠ sig then
        let a2 := { a1 with
          imagePaths := a1.imagePaths.set a1.currentImageIndex { f with sig := sig } }
        (reloadTexture a2 reloadOk, reloadOk)
      else (a1, false)
    | _, _ => (a1, false)
  else ({ a with secondsElapsed := t }, false)

/-- The §3 invariant: a non-empty sequence with the current index in range. -/
def indexInvariant (a : AppData) : Prop :=
  a.imagePaths ≠ [] ∧ a.currentImageIndex < a.imagePaths.length

instance (a : AppData) : Decidable (indexInvariant a) :=
  inferInstanceAs
    (Decidable (a.imagePaths ≠ [] ∧ a.currentImageIndex < a.imagePaths.length))

/-- Sample entry `A` for concrete navigation checks. -/
def tfA : TextureFile := TextureFile.mk 0 0 (FileSignature.mk none none 0)

/-- Sample entry `B`. -/
def tfB : TextureFile := TextureFile.mk 1 1 (FileSignature.mk none none 1)

/-- Sample entry `C`. -/
def tfC : TextureFile := TextureFile.mk 2 2 (FileSignature.mk none none 2)

/-- A viewer state over a given sequence and index, with the remaining
fields as `AppData::new` initialises them (`window_size = [1,1]`,
`cursor_position = [0,0]`, accumulator `0`). -/
def sampleState (l : List TextureFile) (i : Nat) : AppData :=
  AppData.mk l i (1, 1) (0, 0) none 0

/-- The three-element sample state `[A, B, C]` at index `0`. -/
def sample3 : AppData := sampleState [tfA, tfB, tfC] 0

/-- The three-element sample state `[A, B, C]` at index `2`. -/
def sample3at2 : AppData := sampleState [tfA, tfB, tfC] 2

/-- Outcome of running the viewer process, as far as the claims observe
it: a panic (an `unwrap` of an `Err`) or a process exit code. -/
inductive ProcessOutcome where
  | panicked
  | exited (code : Int)
deriving DecidableEq, Repr

/-- Startup outcome of `AppData::new` (`src/main.rs` lines 192-219): the
per-path signature capture (`FileSignature::new(p).unwrap()`) and texture
load (`Texture::from_file(p).unwrap()`) are unwrapped inside the
constructing `map`, so any failure there panics; after construction a
failing initial `reload_texture` prints a message and calls
`std::process::exit(-1)`.  `loads` records per path whether both unwrapped
steps succeeded, `reloadOk` the initial `reload_texture` outcome; `none`
means the constructor returned normally. -/
def appDataNewOutcome (loads : List Bool) (reloadOk : Bool) :
    Option ProcessOutcome :=
  if loads.all (fun b => b) then
    if reloadOk then none else some (ProcessOutcome.exited (-1))
  else some ProcessOutcome.panicked

/-- Modelled from the spec: after a successful startup "the process exits
normally with code 0" when the event loop receives a close request or
Escape (§5, §6); the event loop itself lives in the external
`glutin`/`winit` crates, not in this repository's sources, so its exit is
taken from the spec's words.  Startup behavior comes from
`appDataNewOutcome`, i.e. from the source. -/
def processOutcome (loads : List Bool) (reloadOk : Bool) : ProcessOutcome :=
  match appDataNewOutcome loads reloadOk with
  | some o => o
  | none => ProcessOutcome.exited 0

end Viewer

namespace Viewer

/-- C1: with the default pre-scale `(1,1)` and strictly positive window and
image sizes, the recomputed aspect-fit scale satisfies `sx ≤ 1`, `sy ≤ 1`,
at least one of the two equals `1`, and a square window with a square image
yields `(1,1)`. -/
theorem aspect_fit_bounds (w h iw ih : Int)
    (hw : 0 < w) (hh : 0 < h) (hiw : 0 < iw) (hih : 0 < ih) :
    (recalcAspectScale (w, h) (1, 1) (iw, ih)).1 ≤ 1 ∧
    (recalcAspectScale (w, h) (1, 1) (iw, ih)).2 ≤ 1 ∧
    ((recalcAspectScale (w, h) (1, 1) (iw, ih)).1 = 1 ∨
      (recalcAspectScale (w, h) (1, 1) (iw, ih)).2 = 1) ∧
    (w = h → iw = ih → recalcAspectScale (w, h) (1, 1) (iw, ih) = (1, 1)) := by
  have hwQ : (0 : ℚ) < (w : ℚ) := by exact_mod_cast hw
  have hhQ : (0 : ℚ) < (h : ℚ) := by exact_mod_cast hh
  have hiwQ : (0 : ℚ) < (iw : ℚ) := by exact_mod_cast hiw
  have hihQ : (0 : ℚ) < (ih : ℚ) := by exact_mod_cast hih
  have hva : (0 : ℚ) < (w : ℚ) / (h : ℚ) := div_pos hwQ hhQ
  have hia : (0 : ℚ) < (iw : ℚ) / (ih : ℚ) := div_pos hiwQ hihQ
  unfold recalcAspectScale
  simp only [mul_one, one_mul]
  by_cases hlt : (w : ℚ) / (h : ℚ) < (iw : ℚ) / (ih : ℚ)
  · rw [if_pos hlt]
    refine ⟨le_refl 1, ?_, Or.inl rfl, ?_⟩
    · have := (div_le_one hia).mpr (le_of_lt hlt)
      simpa using this
    · intro hwh hiwih
      exfalso
      subst hwh; subst hiwih
      rw [div_self hwQ.ne', div_self hiwQ.ne'] at hlt
      exact lt_irrefl 1 hlt
  · rw [if_neg hlt]
    push_neg at hlt
    refine ⟨?_, le_refl 1, Or.inr rfl, ?_⟩
    · have := (div_le_one hva).mpr hlt
      simpa using this
    · intro hwh hiwih
      subst hwh; subst hiwih
      have h1 : (w : ℚ) / (w : ℚ) = 1 := div_self (ne_of_gt hwQ)
      have h2 : (iw : ℚ) / (iw : ℚ) = 1 := div_self (ne_of_gt hiwQ)
      simp [h1, h2]

/-- Witness for C1 at `w = h = 2`, `iw = ih = 3`. -/
theorem aspect_fit_bounds_witness :
    ((0 : Int) < 2 ∧ (0 : Int) < 3) ∧
    ((recalcAspectScale (2, 2) (1, 1) (3, 3)).1 ≤ 1 ∧
      (recalcAspectScale (2, 2) (1, 1) (3, 3)).2 ≤ 1 ∧
      ((recalcAspectScale (2, 2) (1, 1) (3, 3)).1 = 1 ∨
        (recalcAspectScale (2, 2) (1, 1) (3, 3)).2 = 1) ∧
      ((2 : Int) = 2 → (3 : Int) = 3 →
        recalcAspectScale (2, 2) (1, 1) (3, 3) = (1, 1))) :=
  ⟨by decide,
    aspect_fit_bounds 2 2 3 3 (by decide) (by decide) (by decide) (by decide)⟩

/-- C7: the derived `FileSignature` equality holds iff all three fields
match (a missing timestamp only equals a missing timestamp, which the
`Option` field equality expresses); it is reflexive; and two signatures
with identical timestamps but different lengths are unequal. -/
theorem fileSignature_eq_spec (a b c d : FileSignature)
    (hm : c.modified = d.modified) (hc : c.created = d.created)
    (hl : c.len ≠ d.len) :
    (fileSignatureEq a b = true ↔
      (a.modified = b.modified ∧ a.created = b.created ∧ a.len = b.len)) ∧
    fileSignatureEq a a = true ∧
    fileSignatureEq c d = false := by
  have hopt : ∀ x y : Option Nat, optTimeEq x y = true ↔ x = y := by
    intro x y
    cases x <;> cases y <;> simp [optTimeEq]
  refine ⟨?_, ?_, ?_⟩
  · simp [fileSignatureEq, Bool.and_eq_true, hopt, and_assoc]
  · simp [fileSignatureEq, Bool.and_eq_true, hopt]
  · have : ¬ fileSignatureEq c d = true := by
      simp [fileSignatureEq, Bool.and_eq_true, hopt, hm, hc, hl]
    simpa using this

/-- Witness for C7 at concrete signatures: `c` and `d` share timestamps
`(some 5, none)` but have lengths `10` and `11`. -/
theorem fileSignature_eq_spec_witness :
    ((FileSignature.mk (some 5) none 10).modified =
        (FileSignature.mk (some 5) none 11).modified ∧
      (FileSignature.mk (some 5) none 10).created =
        (FileSignature.mk (some 5) none 11).created ∧
      (FileSignature.mk (some 5) none 10).len ≠
        (FileSignature.mk (some 5) none 11).len) ∧
    ((fileSignatureEq (FileSignature.mk (some 1) none 7)
        (FileSignature.mk (some 1) (some 2) 7) = true ↔
        ((FileSignature.mk (some 1) none 7).modified =
            (FileSignature.mk (some 1) (some 2) 7).modified ∧
          (FileSignature.mk (some 1) none 7).created =
            (FileSignature.mk (some 1) (some 2) 7).created ∧
          (FileSignature.mk (some 1) none 7).len =
            (FileSignature.mk (some 1) (some 2) 7).len)) ∧
      fileSignatureEq (FileSignature.mk (some 1) none 7)
        (FileSignature.mk (some 1) none 7) = true ∧
      fileSignatureEq (FileSignature.mk (some 5) none 10)
        (FileSignature.mk (some 5) none 11) = false) :=
  ⟨⟨rfl, rfl, by decide⟩,
    fileSignature_eq_spec (FileSignature.mk (some 1) none 7)
      (FileSignature.mk (some 1) (some 2) 7)
      (FileSignature.mk (some 5) none 10)
      (FileSignature.mk (some 5) none 11) rfl rfl (by decide)⟩

end Viewer

namespace Viewer

/-- Swapping two positions never changes the length of the list. -/
theorem listSwap_length (l : List TextureFile) (a b : Nat) :
    (listSwap l a b).length = l.length := by
  unfold listSwap
  cases h1 : l.get? a <;> cases h2 : l.get? b <;> simp

/-- In range, `listSwap` is the double `set` of `Vec::swap`. -/
theorem listSwap_eq (l : List TextureFile) (a b : Nat)
    (ha : a < l.length) (hb : b < l.length) :
    listSwap l a b = (l.set a (l.get ⟨b, hb⟩)).set b (l.get ⟨a, ha⟩) := by
  unfold listSwap
  rw [List.get?_eq_get ha, List.get?_eq_get hb]

/-- After a swap, position `b` holds what was at position `a`. -/
theorem listSwap_get_snd (l : List TextureFile) (a b : Nat)
    (ha : a < l.length) (hb : b < l.length) :
    (listSwap l a b).get? b = l.get? a := by
  rw [listSwap_eq l a b ha hb,
    List.get?_set_eq_of_lt _ (by simpa using hb), List.get?_eq_get ha]

/-- After a swap, position `a` holds what was at position `b`. -/
theorem listSwap_get_fst (l : List TextureFile) (a b : Nat)
    (ha : a < l.length) (hb : b < l.length) :
    (listSwap l a b).get? a = l.get? b := by
  rw [listSwap_eq l a b ha hb]
  by_cases hab : a = b
  · subst hab
    rw [List.get?_set_eq_of_lt _ (by simpa using ha), List.get?_eq_get ha]
  · rw [List.get?_set_ne (l.get ⟨a, ha⟩) (l.set a (l.get ⟨b, hb⟩)) (Ne.symm hab),
      List.get?_set_eq_of_lt _ (by simpa using ha), List.get?_eq_get hb]

/-- Positions other than the two swapped ones are untouched. -/
theorem listSwap_get_other (l : List TextureFile) (a b c : Nat)
    (hca : c ≠ a) (hcb : c ≠ b) :
    (listSwap l a b).get? c = l.get? c := by
  unfold listSwap
  cases h1 : l.get? a with
  | none => rfl
  | some x =>
    cases h2 : l.get? b with
    | none => rfl
    | some y =>
      rw [List.get?_set_ne x (l.set a y) (Ne.symm hcb),
        List.get?_set_ne y l (Ne.symm hca)]

/-- Swapping back restores the original list. -/
theorem listSwap_listSwap (l : List TextureFile) (a b : Nat)
    (ha : a < l.length) (hb : b < l.length) :
    listSwap (listSwap l a b) b a = l := by
  have hl := listSwap_length l a b
  have ha' : a < (listSwap l a b).length := by rw [hl]; exact ha
  have hb' : b < (listSwap l a b).length := by rw [hl]; exact hb
  apply List.ext_get?
  intro n
  by_cases hna : n = a
  · subst hna
    rw [listSwap_get_snd _ b n hb' ha', listSwap_get_snd l n b ha hb]
  · by_cases hnb : n = b
    · subst hnb
      rw [listSwap_get_fst _ n a hb' ha', listSwap_get_fst l a n ha hb]
    · rw [listSwap_get_other _ b a n hnb hna, listSwap_get_other l a b n hna hnb]

/-- Left neighbor of the right neighbor is the point of departure. -/
theorem mod_neighbor_left_of_right (i n : Nat) (h : i < n) :
    ((i + 1) % n + n - 1) % n = i := by
  rcases Nat.lt_or_ge (i + 1) n with h1 | h1
  · rw [Nat.mod_eq_of_lt h1]
    have h2 : i + 1 + n - 1 = i + n := by omega
    rw [h2, Nat.add_mod_right, Nat.mod_eq_of_lt h]
  · have h2 : i + 1 = n := by omega
    rw [h2, Nat.mod_self]
    have h3 : 0 + n - 1 = i := by omega
    rw [h3, Nat.mod_eq_of_lt h]

/-- Right neighbor of the left neighbor is the point of departure. -/
theorem mod_neighbor_right_of_left (i n : Nat) (h : i < n) :
    ((i + n - 1) % n + 1) % n = i := by
  rcases Nat.eq_zero_or_pos i with rfl | hi
  · have h1 : (0 + n - 1) % n = n - 1 := by
      have e : 0 + n - 1 = n - 1 := by omega
      rw [e, Nat.mod_eq_of_lt (by omega : n - 1 < n)]
    rw [h1]
    have h2 : n - 1 + 1 = n := by omega
    rw [h2, Nat.mod_self]
  · have h1 : (i + n - 1) % n = i - 1 := by
      have e : i + n - 1 = (i - 1) + n := by omega
      rw [e, Nat.add_mod_right, Nat.mod_eq_of_lt (by omega : i - 1 < n)]
    rw [h1]
    have h2 : i - 1 + 1 = i := by omega
    rw [h2, Nat.mod_eq_of_lt h]

/-- Reloading never changes the image sequence. -/
theorem reloadTexture_imagePaths (a : AppData) (ok : Bool) :
    (reloadTexture a ok).imagePaths = a.imagePaths := by
  unfold reloadTexture
  split
  · split <;> rfl
  · rfl

/-- Reloading never changes the current index. -/
theorem reloadTexture_index (a : AppData) (ok : Bool) :
    (reloadTexture a ok).currentImageIndex = a.currentImageIndex := by
  unfold reloadTexture
  split
  · split <;> rfl
  · rfl

/-- A failed reload leaves the whole state untouched. -/
theorem reloadTexture_false (a : AppData) : reloadTexture a false = a := rfl

/-- Projection of `cycleLeft` on the sequence. -/
theorem cycleLeft_imagePaths (a : AppData) :
    (cycleLeft a).imagePaths = a.imagePaths := by
  unfold cycleLeft
  rw [reloadTexture_imagePaths]

/-- Projection of `cycleLeft` on the index. -/
theorem cycleLeft_index (a : AppData) :
    (cycleLeft a).currentImageIndex
      = (a.currentImageIndex + a.imagePaths.length - 1) % a.imagePaths.length := by
  unfold cycleLeft
  rw [reloadTexture_index]

/-- Projection of `cycleRight` on the sequence. -/
theorem cycleRight_imagePaths (a : AppData) :
    (cycleRight a).imagePaths = a.imagePaths := by
  unfold cycleRight
  rw [reloadTexture_imagePaths]

/-- Projection of `cycleRight` on the index. -/
theorem cycleRight_index (a : AppData) :
    (cycleRight a).currentImageIndex
      = (a.currentImageIndex + 1) % a.imagePaths.length := by
  unfold cycleRight
  rw [reloadTexture_index]

/-- Projection of `dropCurrent` on the sequence. -/
theorem dropCurrent_imagePaths (a : AppData) :
    (dropCurrent a).imagePaths = a.imagePaths.eraseIdx a.currentImageIndex := by
  unfold dropCurrent
  rw [reloadTexture_imagePaths]

/-- Projection of `dropCurrent` on the index. -/
theorem dropCurrent_index (a : AppData) :
    (dropCurrent a).currentImageIndex
      = if a.currentImageIndex = (a.imagePaths.eraseIdx a.currentImageIndex).length
        then 0 else a.currentImageIndex := by
  unfold dropCurrent
  rw [reloadTexture_index]

end Viewer

namespace Viewer

/-- Projection of `shiftRight` on the sequence. -/
theorem shiftRight_imagePaths (a : AppData) :
    (shiftRight a).imagePaths
      = listSwap a.imagePaths a.currentImageIndex
          ((a.currentImageIndex + 1) % a.imagePaths.length) := rfl

/-- Projection of `shiftRight` on the index. -/
theorem shiftRight_index (a : AppData) :
    (shiftRight a).currentImageIndex
      = (a.currentImageIndex + 1) % a.imagePaths.length := rfl

/-- Projection of `shiftLeft` on the sequence. -/
theorem shiftLeft_imagePaths (a : AppData) :
    (shiftLeft a).imagePaths
      = listSwap a.imagePaths a.currentImageIndex
          ((a.currentImageIndex + a.imagePaths.length - 1) % a.imagePaths.length) := rfl

/-- Projection of `shiftLeft` on the index. -/
theorem shiftLeft_index (a : AppData) :
    (shiftLeft a).currentImageIndex
      = (a.currentImageIndex + a.imagePaths.length - 1) % a.imagePaths.length := rfl

/-- The source's `Nat` left-neighbor formula agrees with the mathematical
`(i - 1) mod n` over `ℤ`. -/
theorem left_neighbor_int (i n : Nat) (hn : 0 < n) :
    (((i + n - 1) % n : Nat) : ℤ) = ((i : ℤ) - 1) % (n : ℤ) := by
  have h2 : ((i + n - 1 : ℕ) : ℤ) = (i : ℤ) + (n : ℤ) - 1 := by omega
  calc (((i + n - 1) % n : ℕ) : ℤ)
      = ((i + n - 1 : ℕ) : ℤ) % ((n : ℕ) : ℤ) := by rw [Int.natCast_mod]
    _ = ((i : ℤ) - 1 + (n : ℤ) * 1) % (n : ℤ) := by rw [h2]; congr 1; ring
    _ = ((i : ℤ) - 1) % (n : ℤ) := Int.add_mul_emod_self_left _ _ _

/-- The source's `Nat` right-neighbor formula agrees with the mathematical
`(i + 1) mod n` over `ℤ`. -/
theorem right_neighbor_int (i n : Nat) :
    (((i + 1) % n : Nat) : ℤ) = ((i : ℤ) + 1) % (n : ℤ) := by
  rw [Int.natCast_mod]
  push_cast
  rfl

end Viewer

namespace Viewer

/-- C2: each navigation operation (`cycleLeft`, `cycleRight`, `shiftLeft`,
`shiftRight`, and — given at least two entries — `dropCurrent`) takes a
state satisfying the invariant `0 ≤ currentIndex < length(sequence)` with
a non-empty sequence back to a state satisfying it. -/
theorem nav_preserves_invariant (a : AppData) (hinv : indexInvariant a) :
    indexInvariant (cycleLeft a) ∧ indexInvariant (cycleRight a) ∧
    indexInvariant (shiftLeft a) ∧ indexInvariant (shiftRight a) ∧
    (2 ≤ a.imagePaths.length → indexInvariant (dropCurrent a)) := by
  obtain ⟨hne, hidx⟩ := hinv
  have hn : 0 < a.imagePaths.length := List.length_pos.mpr hne
  refine ⟨⟨?_, ?_⟩, ⟨?_, ?_⟩, ⟨?_, ?_⟩, ⟨?_, ?_⟩, ?_⟩
  · rw [cycleLeft_imagePaths]; exact hne
  · rw [cycleLeft_index, cycleLeft_imagePaths]; exact Nat.mod_lt _ hn
  · rw [cycleRight_imagePaths]; exact hne
  · rw [cycleRight_index, cycleRight_imagePaths]; exact Nat.mod_lt _ hn
  · rw [shiftLeft_imagePaths]
    exact List.length_pos.mp (by rw [listSwap_length]; exact hn)
  · rw [shiftLeft_index, shiftLeft_imagePaths, listSwap_length]
    exact Nat.mod_lt _ hn
  · rw [shiftRight_imagePaths]
    exact List.length_pos.mp (by rw [listSwap_length]; exact hn)
  · rw [shiftRight_index, shiftRight_imagePaths, listSwap_length]
    exact Nat.mod_lt _ hn
  · intro h2
    have hlen := List.length_eraseIdx_add_one hidx
    constructor
    · rw [dropCurrent_imagePaths]
      exact List.length_pos.mp (by omega)
    · rw [dropCurrent_index, dropCurrent_imagePaths]
      by_cases hc : a.currentImageIndex
          = (a.imagePaths.eraseIdx a.currentImageIndex).length
      · rw [if_pos hc]; omega
      · rw [if_neg hc]; omega

/-- Witness for C2 at the state `[A, B, C]`, index `0`. -/
theorem nav_preserves_invariant_witness :
    indexInvariant sample3 ∧
    (indexInvariant (cycleLeft sample3) ∧ indexInvariant (cycleRight sample3) ∧
      indexInvariant (shiftLeft sample3) ∧ indexInvariant (shiftRight sample3) ∧
      (2 ≤ sample3.imagePaths.length → indexInvariant (dropCurrent sample3))) :=
  ⟨by decide, nav_preserves_invariant sample3 (by decide)⟩

/-- C3: `dropCurrent` removes exactly the current entry, keeping the
others in order (take/drop split); the index wraps to `0` iff the last
position was removed and is otherwise unchanged; on `[A, B, C]` at index
`2` the result is `[A, B]` at index `0`. -/
theorem dropCurrent_spec (a : AppData) (h2 : 2 ≤ a.imagePaths.length)
    (hidx : a.currentImageIndex < a.imagePaths.length) :
    (dropCurrent a).imagePaths
        = a.imagePaths.take a.currentImageIndex
          ++ a.imagePaths.drop (a.currentImageIndex + 1) ∧
    (dropCurrent a).currentImageIndex
        = (if a.currentImageIndex = a.imagePaths.length - 1 then 0
           else a.currentImageIndex) ∧
    (dropCurrent sample3at2).imagePaths = [tfA, tfB] ∧
    (dropCurrent sample3at2).currentImageIndex = 0 := by
  have hlen := List.length_eraseIdx_add_one hidx
  refine ⟨?_, ?_, by decide, by decide⟩
  · rw [dropCurrent_imagePaths, List.eraseIdx_eq_take_drop_succ]
  · rw [dropCurrent_index]
    by_cases hc : a.currentImageIndex = a.imagePaths.length - 1
    · rw [if_pos (by omega), if_pos hc]
    · rw [if_neg (by omega), if_neg hc]

/-- Witness for C3 at the state `[A, B, C]`, index `2`. -/
theorem dropCurrent_spec_witness :
    (2 ≤ sample3at2.imagePaths.length ∧
      sample3at2.currentImageIndex < sample3at2.imagePaths.length) ∧
    ((dropCurrent sample3at2).imagePaths
        = sample3at2.imagePaths.take sample3at2.currentImageIndex
          ++ sample3at2.imagePaths.drop (sample3at2.currentImageIndex + 1) ∧
      (dropCurrent sample3at2).currentImageIndex
        = (if sample3at2.currentImageIndex = sample3at2.imagePaths.length - 1
           then 0 else sample3at2.currentImageIndex) ∧
      (dropCurrent sample3at2).imagePaths = [tfA, tfB] ∧
      (dropCurrent sample3at2).currentImageIndex = 0) :=
  ⟨⟨by decide, by decide⟩, dropCurrent_spec sample3at2 (by decide) (by decide)⟩

end Viewer

namespace Viewer

/-- C4: `shiftRight` (resp. `shiftLeft`) swaps the current entry with the
entry at the modulo-adjacent neighbor index, moves the current index
there, and afterwards the entry at the new current index is the entry
that was current before; `shiftRight` on `[A, B, C]` at index `0` gives
`[B, A, C]` at index `1`. -/
theorem shift_spec (a : AppData) (hne : a.imagePaths ≠ [])
    (hidx : a.currentImageIndex < a.imagePaths.length) :
    (shiftRight a).imagePaths
        = listSwap a.imagePaths a.currentImageIndex
            ((a.currentImageIndex + 1) % a.imagePaths.length) ∧
    (shiftRight a).currentImageIndex
        = (a.currentImageIndex + 1) % a.imagePaths.length ∧
    ((shiftRight a).currentImageIndex : ℤ)
        = ((a.currentImageIndex : ℤ) + 1) % (a.imagePaths.length : ℤ) ∧
    (shiftRight a).imagePaths.get? (shiftRight a).currentImageIndex
        = a.imagePaths.get? a.currentImageIndex ∧
    (shiftLeft a).imagePaths
        = listSwap a.imagePaths a.currentImageIndex
            ((a.currentImageIndex + a.imagePaths.length - 1) % a.imagePaths.length) ∧
    (shiftLeft a).currentImageIndex
        = (a.currentImageIndex + a.imagePaths.length - 1) % a.imagePaths.length ∧
    ((shiftLeft a).currentImageIndex : ℤ)
        = ((a.currentImageIndex : ℤ) - 1) % (a.imagePaths.length : ℤ) ∧
    (shiftLeft a).imagePaths.get? (shiftLeft a).currentImageIndex
        = a.imagePaths.get? a.currentImageIndex ∧
    (shiftRight sample3).imagePaths = [tfB, tfA, tfC] ∧
    (shiftRight sample3).currentImageIndex = 1 := by
  have hn : 0 < a.imagePaths.length := List.length_pos.mpr hne
  have hj : (a.currentImageIndex + 1) % a.imagePaths.length < a.imagePaths.length :=
    Nat.mod_lt _ hn
  have hk : (a.currentImageIndex + a.imagePaths.length - 1) % a.imagePaths.length
      < a.imagePaths.length := Nat.mod_lt _ hn
  refine ⟨rfl, rfl, ?_, ?_, rfl, rfl, ?_, ?_, by decide, by decide⟩
  · rw [shiftRight_index]
    exact right_neighbor_int _ _
  · rw [shiftRight_imagePaths, shiftRight_index]
    exact listSwap_get_snd _ _ _ hidx hj
  · rw [shiftLeft_index]
    exact left_neighbor_int _ _ hn
  · rw [shiftLeft_imagePaths, shiftLeft_index]
    exact listSwap_get_snd _ _ _ hidx hk

/-- Witness for C4 at the state `[A, B, C]`, index `0`. -/
theorem shift_spec_witness :
    (sample3.imagePaths ≠ [] ∧
      sample3.currentImageIndex < sample3.imagePaths.length) ∧
    ((shiftRight sample3).imagePaths
        = listSwap sample3.imagePaths sample3.currentImageIndex
            ((sample3.currentImageIndex + 1) % sample3.imagePaths.length) ∧
      (shiftRight sample3).currentImageIndex
        = (sample3.currentImageIndex + 1) % sample3.imagePaths.length ∧
      ((shiftRight sample3).currentImageIndex : ℤ)
        = ((sample3.currentImageIndex : ℤ) + 1) % (sample3.imagePaths.length : ℤ) ∧
      (shiftRight sample3).imagePaths.get? (shiftRight sample3).currentImageIndex
        = sample3.imagePaths.get? sample3.currentImageIndex ∧
      (shiftLeft sample3).imagePaths
        = listSwap sample3.imagePaths sample3.currentImageIndex
            ((sample3.currentImageIndex + sample3.imagePaths.length - 1)
              % sample3.imagePaths.length) ∧
      (shiftLeft sample3).currentImageIndex
        = (sample3.currentImageIndex + sample3.imagePaths.length - 1)
            % sample3.imagePaths.length ∧
      ((shiftLeft sample3).currentImageIndex : ℤ)
        = ((sample3.currentImageIndex : ℤ) - 1) % (sample3.imagePaths.length : ℤ) ∧
      (shiftLeft sample3).imagePaths.get? (shiftLeft sample3).currentImageIndex
        = sample3.imagePaths.get? sample3.currentImageIndex ∧
      (shiftRight sample3).imagePaths = [tfB, tfA, tfC] ∧
      (shiftRight sample3).currentImageIndex = 1) :=
  ⟨⟨by decide, by decide⟩, shift_spec sample3 (by decide) (by decide)⟩

/-- C5: cycling moves the current index by `-1` / `+1` modulo the length
and leaves the sequence itself unchanged; on the three-element sample,
`cycleLeft` from `0` gives `2`, `cycleLeft` again gives `1`, and
`cycleRight` from `2` gives `0`. -/
theorem cycle_spec (a : AppData) (hne : a.imagePaths ≠ [])
    (hidx : a.currentImageIndex < a.imagePaths.length) :
    (cycleLeft a).imagePaths = a.imagePaths ∧
    (cycleRight a).imagePaths = a.imagePaths ∧
    ((cycleLeft a).currentImageIndex : ℤ)
        = ((a.currentImageIndex : ℤ) - 1) % (a.imagePaths.length : ℤ) ∧
    ((cycleRight a).currentImageIndex : ℤ)
        = ((a.currentImageIndex : ℤ) + 1) % (a.imagePaths.length : ℤ) ∧
    (cycleLeft sample3).currentImageIndex = 2 ∧
    (cycleLeft (cycleLeft sample3)).currentImageIndex = 1 ∧
    (cycleRight sample3at2).currentImageIndex = 0 := by
  have hn : 0 < a.imagePaths.length := List.length_pos.mpr hne
  refine ⟨cycleLeft_imagePaths a, cycleRight_imagePaths a, ?_, ?_,
    by decide, by decide, by decide⟩
  · rw [cycleLeft_index]
    exact left_neighbor_int _ _ hn
  · rw [cycleRight_index]
    exact right_neighbor_int _ _

/-- Witness for C5 at the state `[A, B, C]`, index `0`. -/
theorem cycle_spec_witness :
    (sample3.imagePaths ≠ [] ∧
      sample3.currentImageIndex < sample3.imagePaths.length) ∧
    ((cycleLeft sample3).imagePaths = sample3.imagePaths ∧
      (cycleRight sample3).imagePaths = sample3.imagePaths ∧
      ((cycleLeft sample3).currentImageIndex : ℤ)
        = ((sample3.currentImageIndex : ℤ) - 1) % (sample3.imagePaths.length : ℤ) ∧
      ((cycleRight sample3).currentImageIndex : ℤ)
        = ((sample3.currentImageIndex : ℤ) + 1) % (sample3.imagePaths.length : ℤ) ∧
      (cycleLeft sample3).currentImageIndex = 2 ∧
      (cycleLeft (cycleLeft sample3)).currentImageIndex = 1 ∧
      (cycleRight sample3at2).currentImageIndex = 0) :=
  ⟨⟨by decide, by decide⟩, cycle_spec sample3 (by decide) (by decide)⟩

/-- C9: on any valid state, `shiftRight` followed by `shiftLeft` (and
`shiftLeft` followed by `shiftRight`) restores the original sequence and
index — the two shifts are mutual inverses. -/
theorem shift_round_trip (a : AppData) (hne : a.imagePaths ≠ [])
    (hidx : a.currentImageIndex < a.imagePaths.length) :
    shiftLeft (shiftRight a) = a ∧ shiftRight (shiftLeft a) = a := by
  have hn : 0 < a.imagePaths.length := List.length_pos.mpr hne
  have hj : (a.currentImageIndex + 1) % a.imagePaths.length < a.imagePaths.length :=
    Nat.mod_lt _ hn
  have hk : (a.currentImageIndex + a.imagePaths.length - 1) % a.imagePaths.length
      < a.imagePaths.length := Nat.mod_lt _ hn
  obtain ⟨l, i, ws, cp, dt, se⟩ := a
  dsimp only at hidx hn hj hk
  constructor
  · simp only [shiftRight, shiftLeft, swapImagePositions]
    rw [listSwap_length, mod_neighbor_left_of_right i l.length hidx,
      listSwap_listSwap l i ((i + 1) % l.length) hidx hj]
  · simp only [shiftRight, shiftLeft, swapImagePositions]
    rw [listSwap_length, mod_neighbor_right_of_left i l.length hidx,
      listSwap_listSwap l i ((i + l.length - 1) % l.length) hidx hk]

/-- Witness for C9 at the state `[A, B, C]`, index `0`. -/
theorem shift_round_trip_witness :
    (sample3.imagePaths ≠ [] ∧
      sample3.currentImageIndex < sample3.imagePaths.length) ∧
    (shiftLeft (shiftRight sample3) = sample3 ∧
      shiftRight (shiftLeft sample3) = sample3) :=
  ⟨⟨by decide, by decide⟩, shift_round_trip sample3 (by decide) (by decide)⟩

end Viewer

namespace Viewer

/-- C6: on a tick that crosses the 1-second threshold, when the signature
capture succeeds with a value differing from the stored one but the
texture reload fails, the stored signature is nonetheless updated to the
captured value, the displayed texture stays what it was, the index is
unchanged, the accumulator is reset, and no redraw is reported. -/
theorem update_reload_failure (a : AppData) (delta : ℚ) (sig : FileSignature)
    (f : TextureFile) (hthr : 1 ≤ a.secondsElapsed + delta)
    (hf : a.imagePaths.get? a.currentImageIndex = some f)
    (hdiff : f.sig ≠ sig) :
    (update a delta (some sig) false).1.imagePaths
        = a.imagePaths.set a.currentImageIndex { f with sig := sig } ∧
    (update a delta (some sig) false).1.imagePaths.get? a.currentImageIndex
        = some { f with sig := sig } ∧
    (update a delta (some sig) false).1.displayedTexture = a.displayedTexture ∧
    (update a delta (some sig) false).1.currentImageIndex = a.currentImageIndex ∧
    (update a delta (some sig) false).1.secondsElapsed = 0 ∧
    (update a delta (some sig) false).2 = false := by
  have hidx : a.currentImageIndex < a.imagePaths.length :=
    (List.get?_eq_some.mp hf).choose
  have hmain : update a delta (some sig) false
      = (AppData.mk
          (a.imagePaths.set a.currentImageIndex { f with sig := sig })
          a.currentImageIndex a.windowSize a.cursorPosition
          a.displayedTexture 0, false) := by
    simp only [update, hf, reloadTexture_false]
    rw [if_pos hthr, if_pos hdiff]
  rw [hmain]
  exact ⟨rfl, List.get?_set_eq_of_lt _ hidx, rfl, rfl, rfl, rfl⟩

/-- Witness for C6: state `[A, B, C]` at index `0`, a one-second tick, a
captured signature differing from `A`'s, and a failing reload. -/
theorem update_reload_failure_witness :
    (1 ≤ sample3.secondsElapsed + 1 ∧
      sample3.imagePaths.get? sample3.currentImageIndex = some tfA ∧
      tfA.sig ≠ FileSignature.mk none none 99) ∧
    ((update sample3 1 (some (FileSignature.mk none none 99)) false).1.imagePaths
        = sample3.imagePaths.set sample3.currentImageIndex
            { tfA with sig := FileSignature.mk none none 99 } ∧
      (update sample3 1 (some (FileSignature.mk none none 99)) false).1.imagePaths.get?
          sample3.currentImageIndex
        = some { tfA with sig := FileSignature.mk none none 99 } ∧
      (update sample3 1 (some (FileSignature.mk none none 99)) false).1.displayedTexture
        = sample3.displayedTexture ∧
      (update sample3 1 (some (FileSignature.mk none none 99)) false).1.currentImageIndex
        = sample3.currentImageIndex ∧
      (update sample3 1 (some (FileSignature.mk none none 99)) false).1.secondsElapsed
        = 0 ∧
      (update sample3 1 (some (FileSignature.mk none none 99)) false).2 = false) :=
  ⟨⟨by norm_num [sample3, sampleState], by decide, by decide⟩,
    update_reload_failure sample3 1 (FileSignature.mk none none 99) tfA
      (by norm_num [sample3, sampleState]) (by decide) (by decide)⟩

/-- C10: when the accumulated elapsed time stays strictly below one
second, `update` only advances the accumulator and reports no redraw —
the result is the same for every possible signature-capture and reload
outcome, so neither is consumed. -/
theorem update_below_threshold (a : AppData) (delta : ℚ)
    (h : a.secondsElapsed + delta < 1) (captured : Option FileSignature)
    (reloadOk : Bool) :
    update a delta captured reloadOk
      = ({ a with secondsElapsed := a.secondsElapsed + delta }, false) := by
  simp only [update]
  rw [if_neg (not_le.mpr h)]

/-- Witness for C10: state `[A, B, C]` at accumulator `0`, a zero-length
tick. -/
theorem update_below_threshold_witness :
    (sample3.secondsElapsed + 0 < 1) ∧
    update sample3 0 none true
      = ({ sample3 with secondsElapsed := sample3.secondsElapsed + 0 }, false) :=
  ⟨by norm_num [sample3, sampleState],
    update_below_threshold sample3 0 (by norm_num [sample3, sampleState]) none true⟩

/-- C8 counterexample: when loading the first (sole) image fails at
startup, the `unwrap` inside `AppData::new`'s constructing map panics —
the process does not exit with code `-1` as claimed. -/
theorem startup_exit_counterexample :
    processOutcome [false] true = ProcessOutcome.panicked ∧
    processOutcome [false] true ≠ ProcessOutcome.exited (-1) := by
  exact ⟨rfl, by decide⟩

/-- C8 amended: a failing image load or signature capture at startup
panics (it does not reach the `exit(-1)` handler); exit code `-1` occurs
when every startup image load succeeds but the initial `reload_texture`
fails; when everything succeeds the process runs and exits with code `0`
(event-loop exit modelled from the spec). -/
theorem startup_exit_spec (loads : List Bool) (reloadOk : Bool) :
    (loads.all (fun b => b) = true → reloadOk = true →
        processOutcome loads reloadOk = ProcessOutcome.exited 0) ∧
    (loads.all (fun b => b) = true → reloadOk = false →
        processOutcome loads reloadOk = ProcessOutcome.exited (-1)) ∧
    (loads.all (fun b => b) = false →
        processOutcome loads reloadOk = ProcessOutcome.panicked) := by
  refine ⟨?_, ?_, ?_⟩
  · intro h1 h2
    subst h2
    simp [processOutcome, appDataNewOutcome, h1]
  · intro h1 h2
    subst h2
    simp [processOutcome, appDataNewOutcome, h1]
  · intro h1
    simp [processOutcome, appDataNewOutcome, h1]

/-- Witness for the amended C8 on a two-image startup: all loads
succeeding with a working reload exits `0`; all loads succeeding with a
failing initial reload exits `-1`. -/
theorem startup_exit_spec_witness :
    ([true, true].all (fun b => b) = true) ∧
    processOutcome [true, true] true = ProcessOutcome.exited 0 ∧
    processOutcome [true, true] false = ProcessOutcome.exited (-1) :=
  ⟨by decide, (startup_exit_spec [true, true] true).1 (by decide) rfl,
    (startup_exit_spec [true, true] false).2.1 (by decide) rfl⟩

end Viewer
